import Mathlib

/-!
# SourcePawn v2 front-end driver (`v2/compile-context.cpp`)

A shallow embedding of `CompileContext`: its constructor and destructor
(the thread-local `CurrentCompileContext` handle and the command line),
`ChangePragmaDynamic`, the phase driver `compile`, and
`createAnonymousName`.

Conventions.
* `int64_t` values are integers in `[-2^63, 2^63)`; conversions to
  `uint64_t` and `size_t` are reductions modulo `2^64` and `2^sizeBits`.
* Classes that live in other translation units (string pool, type manager,
  source manager, preprocessor, parser, resolution passes, report manager)
  are collaborators: state transformers over an abstract world `σ`.
* A failed `assert`, an out-of-range `Vector` index and a null dereference
  are faults (`Except.error`).
-/

namespace SourcePawn

/-! ## Data model -/

/-- Abnormal terminations of the C++ code. -/
inductive Fault where
  | assertFailed
  | indexOutOfBounds
  | nullDeref
  deriving DecidableEq

/-- The members of `CompileOptions` that `compile-context.cpp` touches. -/
structure CompileOptions where
  InputFiles : List String
  SearchPaths : List String
  PragmaDynamic : Nat
  deriving DecidableEq

/-- Modelled from the spec: the message identifiers of the `rmsg` catalogue
(its header is outside this file). Only the two identifiers used by
`ChangePragmaDynamic` are named; every other entry is `other n`. -/
inductive Rmsg where
  | pragma_dynamic_negative
  | pragma_dynamic_too_large
  | other (id : Nat)
  deriving DecidableEq

/-- Modelled from the spec: `ReportingContext::report` "records a
diagnostic"; the reporting context is the sequence of message identifiers
reported through it, oldest first. -/
structure ReportingContext where
  reported : List Rmsg
  deriving DecidableEq

/-- The call `rc.report(msg)`. -/
def ReportingContext.report (rc : ReportingContext) (msg : Rmsg) : ReportingContext :=
  { reported := rc.reported ++ [msg] }

/-! ## Machine integers -/

/-- The range of `int64_t`. -/
def isInt64 (v : Int) : Prop := -(2 ^ 63 : Int) ≤ v ∧ v < (2 ^ 63 : Int)

instance (v : Int) : Decidable (isInt64 v) := by
  unfold isInt64; exact inferInstance

/-- The cast `uint64_t(value)`. -/
def toUInt64 (value : Int) : Nat := (value % (2 ^ 64 : Int)).toNat

/-- The cast `size_t(value)` on a platform whose `size_t` has `sizeBits` bits. -/
def toSizeT (sizeBits : Nat) (value : Int) : Nat := (value % (2 ^ sizeBits : Int)).toNat

/-- Modelled from the spec: the constant `kMB` (declared in a utility header
outside this file), `1024 * 1024`. -/
def kMB : Nat := 1024 * 1024

/-! ## `CompileContext::ChangePragmaDynamic` -/

/-- `CompileContext::ChangePragmaDynamic(ReportingContext &rc, int64_t value)`.
Returns the boolean result, the reporting context and `options_` afterwards.
The bound `64 * kMB` is computed in `size_t`. -/
def ChangePragmaDynamic (sizeBits : Nat) (options_ : CompileOptions)
    (rc : ReportingContext) (value : Int) : Bool × ReportingContext × CompileOptions :=
  if value < 0 then
    (false, rc.report Rmsg.pragma_dynamic_negative, options_)
  else if toUInt64 value ≥ (64 * kMB) % 2 ^ sizeBits then
    (false, rc.report Rmsg.pragma_dynamic_too_large, options_)
  else
    (true, rc, { options_ with PragmaDynamic := toSizeT sizeBits value })

/-! ## Construction and destruction -/

/-- Identity of a `CompileContext` object (its `this` pointer). -/
abbrev CtxId := Nat

/-- What the constructor leaves behind: the thread-local
`CurrentCompileContext`, the member `options_`, and the text written to
standard output. -/
structure Constructed where
  current : Option CtxId
  options_ : CompileOptions
  out : List String
  deriving DecidableEq

/-- `CompileContext::CompileContext(int argc, char **argv)` run for the object
`self` on a thread whose handle is `current`; `argc` is the length of `argv`.
`pragmaDefault` is the value the default-constructed `options_` gives
`PragmaDynamic` (both vectors start empty). The allocations of the report
manager and the source manager do not touch the handle or the options. -/
def CompileContext.new (self : CtxId) (pragmaDefault : Nat) (argv : List String)
    (current : Option CtxId) : Except Fault Constructed :=
  if current.isSome then
    Except.error Fault.assertFailed
  else
    let options_ : CompileOptions :=
      { InputFiles := [], SearchPaths := [], PragmaDynamic := pragmaDefault }
    if argv.length < 2 then
      Except.ok { current := some self, options_ := options_, out := ["usage: <file>\n"] }
    else
      match argv[1]? with
      | none => Except.error Fault.indexOutOfBounds
      | some input =>
        Except.ok
          { current := some self
            options_ :=
              { options_ with
                InputFiles := options_.InputFiles ++ [input]
                SearchPaths := options_.SearchPaths ++ ["include/"] }
            out := [] }

/-- `CompileContext::~CompileContext()`: the handle afterwards. -/
def CompileContext.delete (_current : Option CtxId) : Option CtxId := none

/-- A thread: the handle `CurrentCompileContext` and, as bookkeeping, the
objects that have been constructed and not yet destroyed. -/
structure ThreadState where
  current : Option CtxId
  live : List CtxId
  deriving DecidableEq

/-- A fresh thread: the thread-local handle starts null. -/
def ThreadState.init : ThreadState := { current := none, live := [] }

/-- The single-context invariant: at most one object is alive, and the handle
points at it (or is null when none is). -/
def ThreadState.Coherent (st : ThreadState) : Prop :=
  st.live.length ≤ 1 ∧ st.current = st.live.head?

/-- A constructor or destructor call on one thread. -/
inductive LifeOp where
  | construct (self : CtxId) (argv : List String)
  | destroy (self : CtxId)
  deriving DecidableEq

/-- Why a sequence of lifetime operations stops. -/
inductive LifeStop where
  | fault (f : Fault)
  | illFormed
  deriving DecidableEq

/-- One lifetime operation. A constructor runs only on an object that is not
alive, a destructor only on one that is; anything else is not a C++ program. -/
def stepLife (st : ThreadState) : LifeOp → Except LifeStop ThreadState
  | LifeOp.construct self argv =>
    if self ∈ st.live then Except.error LifeStop.illFormed
    else
      match CompileContext.new self 0 argv st.current with
      | Except.error f => Except.error (LifeStop.fault f)
      | Except.ok c => Except.ok { current := c.current, live := self :: st.live }
  | LifeOp.destroy self =>
    if self ∈ st.live then
      Except.ok { current := CompileContext.delete st.current, live := st.live.erase self }
    else Except.error LifeStop.illFormed

/-- A sequence of lifetime operations, left to right. -/
def runLife (st : ThreadState) : List LifeOp → Except LifeStop ThreadState
  | [] => Except.ok st
  | op :: ops =>
    match stepLife st op with
    | Except.error e => Except.error e
    | Except.ok st1 => runLife st1 ops

/-! ## The phase driver -/

/-- Modelled from the spec: a translation unit "holds a reference to its parse
tree"; a new unit has none (`translation-unit` header is outside this file). -/
structure TranslationUnit (τ : Type) where
  tree_ : Option τ

/-- `TranslationUnit::attach`. -/
def TranslationUnit.attach {τ : Type} (_unit : TranslationUnit τ) (tree : τ) :
    TranslationUnit τ :=
  { tree_ := some tree }

/-- The collaborators `compile` calls, as transformers of an abstract world
`σ` (string pool, type table, pool allocator, source manager, preprocessor,
parser, report manager). `φ` is a source-file handle, `τ` a parse tree.
`stringsInit` is `strings_.init()`, `typesInit` is `types_.initialize()`,
`sourceOpen` is `source_->open(rc, path)` (`none` for a null file),
`newPreprocessor`, `newTranslationUnit` and `newParser` are the three object
constructions, `ppEnter` is `pp.enter(file)`, `parse` is `p.parse()`,
`ppCleanup` is `pp.cleanup()`, `memoryUsage` is `POOL().memoryUsage(...)`,
`toJson` is `unit->tree()->toJson(*this, stdout)` and `HasErrors` is
`reports_->HasErrors()`. -/
structure Collaborators (σ φ τ : Type) where
  stringsInit : σ → Bool × σ
  typesInit : σ → Bool × σ
  sourceOpen : σ → String → Option φ × σ
  newPreprocessor : σ → CompileOptions → σ
  newTranslationUnit : σ → σ
  ppEnter : σ → φ → Bool × σ
  newParser : σ → CompileOptions → σ
  parse : σ → τ × σ
  phasePassed : σ → Bool
  ppCleanup : σ → σ
  memoryUsage : σ → Nat × Nat × Nat
  ResolveNames : σ → TranslationUnit τ → Bool × σ
  ResolveTypes : σ → TranslationUnit τ → Bool × σ
  toJson : σ → τ → σ
  HasErrors : σ → Bool

/-- A collaborator call made by `compile`, with the boolean it returned. -/
inductive Event where
  | stringsInit (ok : Bool)
  | typesInit (ok : Bool)
  | sourceOpen (path : String) (found : Bool)
  | newPreprocessor
  | newTranslationUnit
  | ppEnter (ok : Bool)
  | newParser
  | parse
  | phasePassed (ok : Bool)
  | ppCleanup
  | attach
  | ResolveNames (ok : Bool)
  | ResolveTypes (ok : Bool)
  | toJson
  | HasErrors (errors : Bool)
  deriving DecidableEq

/-- A run of `compile`: the value returned (or the fault), the translation
unit if one was allocated, the collaborator calls in order, each with the
world right after it, and the text written to standard error. -/
structure Run (σ τ : Type) where
  ret : Except Fault Bool
  unit : Option (TranslationUnit τ)
  trace : List (Event × σ)
  err : List String

/-- The static helper `ReportMemory(FILE *fp)`: the three lines it prints. -/
def ReportMemory {σ φ τ : Type} (env : Collaborators σ φ τ) (w : σ) : List String :=
  let usage := env.memoryUsage w
  [" -- " ++ toString usage.1 ++ " bytes allocated in pool\n",
   " -- " ++ toString usage.2.1 ++ " bytes reserved in pool\n",
   " -- " ++ toString usage.2.2 ++ " bytes used for bookkeeping\n"]

/-- `CompileContext::compile()`, statement by statement. The reporting context
`rc` is a value built from the context and an empty location; the commented
out emitter block does nothing. -/
def compile {σ φ τ : Type} (env : Collaborators σ φ τ) (options_ : CompileOptions)
    (w0 : σ) : Run σ τ :=
  let r1 := env.stringsInit w0
  let t1 := [(Event.stringsInit r1.1, r1.2)]
  if r1.1 = false then ⟨Except.ok false, none, t1, []⟩ else
  let r2 := env.typesInit r1.2
  let t2 := t1 ++ [(Event.typesInit r2.1, r2.2)]
  if r2.1 = false then ⟨Except.ok false, none, t2, []⟩ else
  match options_.InputFiles[0]? with
  | none => ⟨Except.error Fault.indexOutOfBounds, none, t2, []⟩
  | some path =>
  let r3 := env.sourceOpen r2.2 path
  let t3 := t2 ++ [(Event.sourceOpen path r3.1.isSome, r3.2)]
  match r3.1 with
  | none => ⟨Except.ok false, none, t3, []⟩
  | some file =>
  let w4 := env.newPreprocessor r3.2 options_
  let e1 := ["-- Parsing --\n"]
  let w5 := env.newTranslationUnit w4
  let unit : TranslationUnit τ := { tree_ := none }
  let r6 := env.ppEnter w5 file
  let t6 := t3 ++ [(Event.newPreprocessor, w4), (Event.newTranslationUnit, w5),
    (Event.ppEnter r6.1, r6.2)]
  if r6.1 = false then ⟨Except.ok false, some unit, t6, e1⟩ else
  let w7 := env.newParser r6.2 options_
  let r8 := env.parse w7
  let tree := r8.1
  let t8 := t6 ++ [(Event.newParser, w7), (Event.parse, r8.2),
    (Event.phasePassed (env.phasePassed r8.2), r8.2)]
  if env.phasePassed r8.2 = false then ⟨Except.ok false, some unit, t8, e1⟩ else
  let w9 := env.ppCleanup r8.2
  let t9 := t8 ++ [(Event.ppCleanup, w9), (Event.phasePassed (env.phasePassed w9), w9)]
  if env.phasePassed w9 = false then ⟨Except.ok false, some unit, t9, e1⟩ else
  let unit := unit.attach tree
  let e2 := e1 ++ ReportMemory env w9 ++ ["\n-- Name Binding --\n"]
  let r10 := env.ResolveNames w9 unit
  let t10 := t9 ++ [(Event.attach, w9), (Event.ResolveNames r10.1, r10.2)]
  if r10.1 = false then ⟨Except.ok false, some unit, t10, e2⟩ else
  let e3 := e2 ++ ReportMemory env r10.2 ++ ["\n-- Type Resolution --\n"]
  let r11 := env.ResolveTypes r10.2 unit
  let t11 := t10 ++ [(Event.ResolveTypes r11.1, r11.2)]
  if r11.1 = false then ⟨Except.ok false, some unit, t11, e3⟩ else
  let e4 := e3 ++ ReportMemory env r11.2
  match unit.tree_ with
  | none => ⟨Except.error Fault.nullDeref, some unit, t11, e4⟩
  | some attached =>
  let w12 := env.toJson r11.2 attached
  let t12 := t11 ++ [(Event.toJson, w12), (Event.HasErrors (env.HasErrors w12), w12)]
  if env.HasErrors w12 = true then ⟨Except.ok false, some unit, t12, e4⟩ else
  ⟨Except.ok true, some unit, t12, e4⟩

/-- The calls of a run without the worlds. -/
def Run.calls {σ τ : Type} (r : Run σ τ) : List Event := r.trace.map Prod.fst

/-- The calls of a run in which every step passes, for the input `path`. -/
def passingCalls (path : String) : List Event :=
  [Event.stringsInit true, Event.typesInit true, Event.sourceOpen path true,
   Event.newPreprocessor, Event.newTranslationUnit, Event.ppEnter true,
   Event.newParser, Event.parse, Event.phasePassed true, Event.ppCleanup,
   Event.phasePassed true, Event.attach, Event.ResolveNames true,
   Event.ResolveTypes true, Event.toJson, Event.HasErrors false]

/-- The calls that belong to a phase after loading: entering the preprocessor,
parsing, preprocessor cleanup, the two resolution passes and the tree dump. -/
def Event.laterPhase : Event → Bool
  | Event.ppEnter _ => true
  | Event.parse => true
  | Event.ppCleanup => true
  | Event.ResolveNames _ => true
  | Event.ResolveTypes _ => true
  | Event.toJson => true
  | _ => false

/-- The calls that come after the two parse gates: attaching the tree, the two
resolution passes and the tree dump. -/
def Event.afterGates : Event → Bool
  | Event.attach => true
  | Event.ResolveNames _ => true
  | Event.ResolveTypes _ => true
  | Event.toJson => true
  | _ => false

/-- How the collaborators of one scripted run behave. -/
structure Script where
  stringsOk : Bool
  typesOk : Bool
  fileFound : Bool
  enterOk : Bool
  parseErrors : Nat
  cleanupErrors : Nat
  namesOk : Bool
  namesErrors : Nat
  resolveTypesOk : Bool
  resolveTypesErrors : Nat
  deriving DecidableEq

/-- A concrete set of collaborators, used to run `compile` on examples. The
world is the number of error-severity diagnostics recorded so far: `HasErrors`
holds when it is not zero, the phase gate passes when it is zero, and each
collaborator adds the errors its script gives it. -/
def scripted (s : Script) : Collaborators Nat String String where
  stringsInit w := (s.stringsOk, w)
  typesInit w := (s.typesOk, w)
  sourceOpen w path := if s.fileFound then (some path, w) else (none, w + 1)
  newPreprocessor w _ := w
  newTranslationUnit w := w
  ppEnter w _ := (s.enterOk, w)
  newParser w _ := w
  parse w := ("tree", w + s.parseErrors)
  phasePassed w := decide (w = 0)
  ppCleanup w := w + s.cleanupErrors
  memoryUsage _ := (0, 0, 0)
  ResolveNames w _ := (s.namesOk, w + s.namesErrors)
  ResolveTypes w _ := (s.resolveTypesOk, w + s.resolveTypesErrors)
  toJson w _ := w
  HasErrors w := decide (w ≠ 0)

/-- A script in which every collaborator succeeds and reports nothing. -/
def Script.allPass : Script :=
  { stringsOk := true, typesOk := true, fileFound := true, enterOk := true,
    parseErrors := 0, cleanupErrors := 0, namesOk := true, namesErrors := 0,
    resolveTypesOk := true, resolveTypesErrors := 0 }

/-- A script whose input file cannot be opened. -/
def Script.missingFile : Script := { Script.allPass with fileFound := false }

/-- A script whose parser reports one error. -/
def Script.syntaxError : Script := { Script.allPass with parseErrors := 1 }

/-- A script whose preprocessor cleanup reports one error after a clean parse. -/
def Script.cleanupError : Script := { Script.allPass with cleanupErrors := 1 }

/-- A script whose name resolution reports one error and still returns true. -/
def Script.nameError : Script := { Script.allPass with namesErrors := 1 }

/-- Options naming one input file. -/
def oneInput (path : String) : CompileOptions :=
  { InputFiles := [path], SearchPaths := ["include/"], PragmaDynamic := 0 }

/-! ## `CompileContext::createAnonymousName` -/

/-- Modelled from the spec: an atom is an interned text, "two atoms are
identity-equal iff their underlying text is equal". -/
structure Atom where
  text : String
  deriving DecidableEq

/-- Modelled from the spec: the intern table, the texts interned so far. -/
structure StringPool where
  texts : List String
  deriving DecidableEq

/-- Modelled from the spec: `CompileContext::add(const char *)` interns a text;
the table grows by one atom "if the text is not already present". -/
def StringPool.add (strings_ : StringPool) (str : String) : Atom × StringPool :=
  ({ text := str }, if str ∈ strings_.texts then strings_ else { texts := strings_.texts ++ [str] })

/-- The two queries of the source manager that `createAnonymousName` uses, on
locations of type `L`. -/
structure SourceManager (L : Type) where
  getLine : L → Nat
  getCol : L → Nat

/-- Modelled from the spec: `AutoString + unsigned` appends the decimal digits
of the number (the string class is declared outside this file). -/
def AutoString.addNumber (builder : String) (n : Nat) : String := builder ++ toString n

/-- `CompileContext::createAnonymousName(const SourceLocation &loc)`. -/
def createAnonymousName {L : Type} (source_ : SourceManager L) (strings_ : StringPool)
    (loc : L) : Atom × StringPool :=
  let builder := "anonymous at "
  let builder := AutoString.addNumber builder (source_.getLine loc)
  let builder := AutoString.addNumber builder (source_.getCol loc)
  strings_.add builder

/-- A source manager over locations that are (line, column) pairs. -/
def pairSource : SourceManager (Nat × Nat) where
  getLine loc := loc.1
  getCol loc := loc.2

/-- The text the specification gives an anonymous name: the decimal line, a
colon, the decimal column. -/
def specAnonymousText (line col : Nat) : String :=
  "anonymous at " ++ toString line ++ ":" ++ toString col

/-! ## Machine-integer facts -/

theorem toUInt64_of_nonneg (v : Int) (h0 : 0 ≤ v) (h1 : v < (2 ^ 63 : Int)) :
    toUInt64 v = v.toNat := by
  unfold toUInt64
  rw [Int.emod_eq_of_lt h0 (by omega)]

theorem toSizeT_of_small (sizeBits : Nat) (v : Int) (h0 : 0 ≤ v)
    (h1 : v < (2 ^ sizeBits : Int)) : toSizeT sizeBits v = v.toNat := by
  unfold toSizeT
  rw [Int.emod_eq_of_lt h0 h1]

theorem limit_lt_size (sizeBits : Nat) (hsz : 27 ≤ sizeBits) : 67108864 < 2 ^ sizeBits :=
  calc 67108864 < 2 ^ 27 := by norm_num
    _ ≤ 2 ^ sizeBits := Nat.pow_le_pow_right (by norm_num) hsz

theorem bound_of_sizeBits (sizeBits : Nat) (hsz : 27 ≤ sizeBits) :
    (64 * kMB) % 2 ^ sizeBits = 67108864 := by
  have hk : 64 * kMB = 67108864 := by decide
  rw [hk]
  exact Nat.mod_eq_of_lt (limit_lt_size sizeBits hsz)

theorem bound_le (sizeBits : Nat) : (64 * kMB) % 2 ^ sizeBits ≤ 67108864 := by
  have hk : 64 * kMB = 67108864 := by decide
  rw [hk]
  exact Nat.mod_le _ _

/-! ## `ChangePragmaDynamic` -/

/-- Claim C2: for every value `v` with `0 <= v < 64 * 1024 * 1024`, on a platform
whose `size_t` has at least 27 bits (32 and 64 in practice), and from every
prior options and reporting context, `ChangePragmaDynamic` returns true, stores
exactly `v` in `PragmaDynamic`, leaves the other options alone and reports no
diagnostic. -/
theorem ChangePragmaDynamic_accepts (sizeBits : Nat) (options_ : CompileOptions)
    (rc : ReportingContext) (v : Int) (hsz : 27 ≤ sizeBits)
    (h0 : 0 ≤ v) (h1 : v < 64 * 1024 * 1024) :
    ChangePragmaDynamic sizeBits options_ rc v =
        (true, rc, { options_ with PragmaDynamic := v.toNat }) ∧
      ((ChangePragmaDynamic sizeBits options_ rc v).2.2.PragmaDynamic : Int) = v := by
  have hb := bound_of_sizeBits sizeBits hsz
  have hu := toUInt64_of_nonneg v h0 (by omega)
  have hs : toSizeT sizeBits v = v.toNat := by
    apply toSizeT_of_small _ _ h0
    have hlim : ((67108864 : Nat) : Int) < ((2 ^ sizeBits : Nat) : Int) :=
      Int.ofNat_lt.mpr (limit_lt_size sizeBits hsz)
    push_cast at hlim
    omega
  have hlt : ¬ (v.toNat ≥ 67108864) := by omega
  have hneg : ¬ v < 0 := by omega
  simp only [ChangePragmaDynamic, hneg, hb, hu, hs, hlt, if_false]
  exact ⟨trivial, Int.toNat_of_nonneg h0⟩

theorem ChangePragmaDynamic_accepts_witness :
    ChangePragmaDynamic 32 ⟨["a.sp"], ["include/"], 7⟩ ⟨[Rmsg.other 3]⟩ 67108863 =
        (true, ⟨[Rmsg.other 3]⟩, ⟨["a.sp"], ["include/"], 67108863⟩) ∧
      ((ChangePragmaDynamic 32 ⟨["a.sp"], ["include/"], 7⟩ ⟨[Rmsg.other 3]⟩
        67108863).2.2.PragmaDynamic : Int) = 67108863 :=
  ChangePragmaDynamic_accepts 32 ⟨["a.sp"], ["include/"], 7⟩ ⟨[Rmsg.other 3]⟩ 67108863
    (by decide) (by decide) (by decide)

/-- Claim C3: for every `int64_t` value `v`, whatever the width of `size_t` and
the prior options and reporting context: when `v` is negative the call returns
false, leaves the options as they were and reports the single diagnostic
`pragma_dynamic_negative`; when `v >= 64 * 1024 * 1024` it returns false, leaves
the options as they were and reports the single diagnostic
`pragma_dynamic_too_large`. -/
theorem ChangePragmaDynamic_rejects (sizeBits : Nat) (options_ : CompileOptions)
    (rc : ReportingContext) (v : Int) (hv : isInt64 v) :
    (v < 0 →
      ChangePragmaDynamic sizeBits options_ rc v =
        (false, { reported := rc.reported ++ [Rmsg.pragma_dynamic_negative] }, options_)) ∧
    (64 * 1024 * 1024 ≤ v →
      ChangePragmaDynamic sizeBits options_ rc v =
        (false, { reported := rc.reported ++ [Rmsg.pragma_dynamic_too_large] }, options_)) := by
  unfold ChangePragmaDynamic ReportingContext.report
  constructor
  · intro hneg
    simp [hneg]
  · intro hbig
    have h0 : 0 ≤ v := by omega
    have hneg : ¬ v < 0 := by omega
    have hu := toUInt64_of_nonneg v h0 hv.2
    have hb := bound_le sizeBits
    have hge : toUInt64 v ≥ (64 * kMB) % 2 ^ sizeBits := by
      rw [hu]; omega
    simp [hneg, hge]

theorem ChangePragmaDynamic_rejects_witness :
    isInt64 (-1) ∧ isInt64 67108864 ∧
    ChangePragmaDynamic 64 ⟨["a.sp"], ["include/"], 7⟩ ⟨[Rmsg.other 3]⟩ (-1) =
      (false, ⟨[Rmsg.other 3, Rmsg.pragma_dynamic_negative]⟩, ⟨["a.sp"], ["include/"], 7⟩) ∧
    ChangePragmaDynamic 64 ⟨["a.sp"], ["include/"], 7⟩ ⟨[Rmsg.other 3]⟩ 67108864 =
      (false, ⟨[Rmsg.other 3, Rmsg.pragma_dynamic_too_large]⟩, ⟨["a.sp"], ["include/"], 7⟩) :=
  ⟨by decide, by decide,
    (ChangePragmaDynamic_rejects 64 ⟨["a.sp"], ["include/"], 7⟩ ⟨[Rmsg.other 3]⟩ (-1)
      (by decide)).1 (by decide),
    (ChangePragmaDynamic_rejects 64 ⟨["a.sp"], ["include/"], 7⟩ ⟨[Rmsg.other 3]⟩ 67108864
      (by decide)).2 (by decide)⟩

/-! ## The current-context handle -/

theorem new_current_none (self : CtxId) (dflt : Nat) (argv : List String) :
    ∃ c, CompileContext.new self dflt argv none = Except.ok c ∧ c.current = some self := by
  unfold CompileContext.new
  by_cases h : argv.length < 2
  · simp [h]
  · have h2 : 1 < argv.length := by omega
    simp [h, List.getElem?_eq_getElem h2]

theorem new_current_some (self other : CtxId) (dflt : Nat) (argv : List String) :
    CompileContext.new self dflt argv (some other) = Except.error Fault.assertFailed := by
  simp [CompileContext.new]

theorem stepLife_coherent (st st1 : ThreadState) (op : LifeOp) (hc : st.Coherent)
    (h : stepLife st op = Except.ok st1) : st1.Coherent := by
  obtain ⟨cur, live⟩ := st
  obtain ⟨hlen, hcur⟩ := hc
  simp only at hlen hcur
  cases op with
  | construct self argv =>
    unfold stepLife at h
    simp only at h
    split_ifs at h with hmem
    cases cur with
    | some other => simp [new_current_some] at h
    | none =>
      obtain ⟨c, hc1, hc2⟩ := new_current_none self 0 argv
      rw [hc1] at h
      simp only [Except.ok.injEq] at h
      subst h
      have hnil : live = [] := by
        cases live with
        | nil => rfl
        | cons a l => simp at hcur
      subst hnil
      simp [ThreadState.Coherent, hc2]
  | destroy self =>
    unfold stepLife at h
    simp only at h
    split_ifs at h with hmem
    simp only [Except.ok.injEq] at h
    subst h
    match live, hlen, hmem with
    | [a], _, hmem =>
      simp at hmem
      subst hmem
      simp [ThreadState.Coherent, CompileContext.delete]

theorem runLife_coherent (ops : List LifeOp) (st st1 : ThreadState) (hc : st.Coherent)
    (h : runLife st ops = Except.ok st1) : st1.Coherent := by
  induction ops generalizing st with
  | nil =>
    simp only [runLife, Except.ok.injEq] at h
    subst h; exact hc
  | cons op ops ih =>
    unfold runLife at h
    cases hs : stepLife st op with
    | error e => simp [hs] at h
    | ok st2 =>
      simp only [hs] at h
      exact ih st2 (stepLife_coherent st st2 op hc hs) h

/-- Claim C8: after every sequence of constructions and destructions on a fresh
thread, at most one context is alive and the handle `CurrentCompileContext` is
that context (null when none is alive); in the state reached, constructing a
context while the handle is null succeeds and makes the new context current,
constructing one while a context is current fails the nesting assertion, and
the destructor leaves the handle null whatever it held. -/
theorem current_context_single (ops : List LifeOp) (st : ThreadState)
    (h : runLife ThreadState.init ops = Except.ok st) :
    (st.live.length ≤ 1 ∧ st.current = st.live.head?) ∧
      (∀ self dflt argv, st.current = none →
        ∃ c, CompileContext.new self dflt argv st.current = Except.ok c ∧
          c.current = some self) ∧
      (∀ self dflt argv, st.current ≠ none →
        CompileContext.new self dflt argv st.current = Except.error Fault.assertFailed) ∧
      (∀ cur, CompileContext.delete cur = none) := by
  refine ⟨runLife_coherent ops _ st ?_ h, ?_, ?_, fun _ => rfl⟩
  · simp [ThreadState.Coherent, ThreadState.init]
  · intro self dflt argv hn
    rw [hn]
    exact new_current_none self dflt argv
  · intro self dflt argv hn
    cases hcur : st.current with
    | none => exact absurd hcur hn
    | some other => exact new_current_some self other dflt argv

theorem current_context_single_witness :
    runLife ThreadState.init
        [LifeOp.construct 1 ["spcomp"], LifeOp.destroy 1,
         LifeOp.construct 2 ["spcomp", "a.sp"]] =
      Except.ok ⟨some 2, [2]⟩ ∧
    CompileContext.new 3 0 ["spcomp", "b.sp"] (some 2) = Except.error Fault.assertFailed :=
  ⟨rfl, (current_context_single
    [LifeOp.construct 1 ["spcomp"], LifeOp.destroy 1, LifeOp.construct 2 ["spcomp", "a.sp"]]
    ⟨some 2, [2]⟩ rfl).2.2.1 3 0 ["spcomp", "b.sp"] (by decide)⟩

/-! ## The constructor and the search path -/

/-- Claim C9, counterexample: constructed from the argument vector `["spcomp"]`
(no input file) the context has an empty `SearchPaths`, so no last element. -/
theorem searchPaths_empty_without_input :
    (CompileContext.new 1 0 ["spcomp"] none).map
        (fun c => (c.options_.SearchPaths, c.options_.SearchPaths.getLast?)) =
      Except.ok ([], none) := rfl

/-- Claim C9, amended: a construction that succeeds appends `"include/"` as the
last (and only) search path exactly when an input file is given (`argc >= 2`),
the input file being `argv[1]`; with `argc < 2` the constructor returns before
the append and both lists stay empty. -/
theorem searchPaths_default_with_input (self : CtxId) (dflt : Nat) (argv : List String)
    (c : Constructed) (h : CompileContext.new self dflt argv none = Except.ok c) :
    (2 ≤ argv.length →
      c.options_.SearchPaths = ["include/"] ∧
        c.options_.SearchPaths.getLast? = some "include/" ∧
        c.options_.InputFiles = [argv.getD 1 ""]) ∧
    (argv.length < 2 → c.options_.SearchPaths = [] ∧ c.options_.InputFiles = []) := by
  unfold CompileContext.new at h
  by_cases hlt : argv.length < 2
  · simp [hlt] at h
    subst h
    exact ⟨fun h2 => by omega, fun _ => ⟨rfl, rfl⟩⟩
  · have h2 : 1 < argv.length := by omega
    simp [hlt, List.getElem?_eq_getElem h2] at h
    subst h
    refine ⟨fun _ => ⟨rfl, rfl, ?_⟩, fun h3 => absurd h3 hlt⟩
    simp [List.getD, List.getElem?_eq_getElem h2]

theorem searchPaths_default_with_input_witness :
    CompileContext.new 1 0 ["spcomp", "a.sp"] none =
        Except.ok ⟨some 1, ⟨["a.sp"], ["include/"], 0⟩, []⟩ ∧
      (⟨["a.sp"], ["include/"], 0⟩ : CompileOptions).SearchPaths.getLast? = some "include/" :=
  ⟨rfl, ((searchPaths_default_with_input 1 0 ["spcomp", "a.sp"]
    ⟨some 1, ⟨["a.sp"], ["include/"], 0⟩, []⟩ rfl).1 (by decide)).2.1⟩

/-! ## The phase driver -/

/-- Claim C1: `compile` returns true exactly when every step passes on the
worlds the run goes through: `strings_.init()` and `types_.initialize()`
return true, the source manager returns a file for `InputFiles[0]`,
`pp.enter` returns true, the phase gate is true on the world after the parse
and on the world after the cleanup, `ResolveNames` and `ResolveTypes` return
true on the unit holding the parsed tree, and `HasErrors` is false on the
world after the tree dump. When every step passes and that last `HasErrors`
is true, `compile` returns false. A run returns true exactly when its calls
are the passing sequence. -/
theorem compile_true_iff {σ φ τ : Type} (env : Collaborators σ φ τ)
    (options_ : CompileOptions) (w0 : σ) :
    ((compile env options_ w0).ret = Except.ok true ↔
      ∃ path file tree w1 w2 w3 w6 w8 w10 w11,
        options_.InputFiles[0]? = some path ∧
        env.stringsInit w0 = (true, w1) ∧
        env.typesInit w1 = (true, w2) ∧
        env.sourceOpen w2 path = (some file, w3) ∧
        env.ppEnter (env.newTranslationUnit (env.newPreprocessor w3 options_)) file =
          (true, w6) ∧
        env.parse (env.newParser w6 options_) = (tree, w8) ∧
        env.phasePassed w8 = true ∧
        env.phasePassed (env.ppCleanup w8) = true ∧
        env.ResolveNames (env.ppCleanup w8) { tree_ := some tree } = (true, w10) ∧
        env.ResolveTypes w10 { tree_ := some tree } = (true, w11) ∧
        env.HasErrors (env.toJson w11 tree) = false) ∧
    (∀ path file tree w1 w2 w3 w6 w8 w10 w11,
        options_.InputFiles[0]? = some path →
        env.stringsInit w0 = (true, w1) →
        env.typesInit w1 = (true, w2) →
        env.sourceOpen w2 path = (some file, w3) →
        env.ppEnter (env.newTranslationUnit (env.newPreprocessor w3 options_)) file =
          (true, w6) →
        env.parse (env.newParser w6 options_) = (tree, w8) →
        env.phasePassed w8 = true →
        env.phasePassed (env.ppCleanup w8) = true →
        env.ResolveNames (env.ppCleanup w8) { tree_ := some tree } = (true, w10) →
        env.ResolveTypes w10 { tree_ := some tree } = (true, w11) →
        env.HasErrors (env.toJson w11 tree) = true →
        (compile env options_ w0).ret = Except.ok false) ∧
    ((compile env options_ w0).ret = Except.ok true ↔
      ∃ path, options_.InputFiles[0]? = some path ∧
        (compile env options_ w0).calls = passingCalls path) := by
  refine ⟨⟨?_, ?_⟩, ?_, ?_⟩
  · intro hret
    unfold compile at hret
    simp only [] at hret
    rcases e1 : env.stringsInit w0 with ⟨b1, w1⟩
    simp only [e1] at hret
    cases b1
    · simp at hret
    simp only [Bool.true_eq_false, if_false] at hret
    rcases e2 : env.typesInit w1 with ⟨b2, w2⟩
    simp only [e2] at hret
    cases b2
    · simp at hret
    simp only [Bool.true_eq_false, if_false] at hret
    cases hp : options_.InputFiles[0]? with
    | none => simp [hp] at hret
    | some path =>
    simp only [hp] at hret
    rcases e3 : env.sourceOpen w2 path with ⟨f3, w3⟩
    simp only [e3] at hret
    cases f3 with
    | none => simp at hret
    | some file =>
    simp only [] at hret
    rcases e6 : env.ppEnter (env.newTranslationUnit (env.newPreprocessor w3 options_)) file
      with ⟨b6, w6⟩
    simp only [e6] at hret
    cases b6
    · simp at hret
    simp only [Bool.true_eq_false, if_false] at hret
    rcases e8 : env.parse (env.newParser w6 options_) with ⟨tree, w8⟩
    simp only [e8] at hret
    cases h8 : env.phasePassed w8
    · simp [h8] at hret
    simp only [h8, Bool.true_eq_false, if_false] at hret
    cases h9 : env.phasePassed (env.ppCleanup w8)
    · simp [h9] at hret
    simp only [h9, Bool.true_eq_false, if_false, TranslationUnit.attach] at hret
    rcases e10 : env.ResolveNames (env.ppCleanup w8) { tree_ := some tree } with ⟨b10, w10⟩
    simp only [e10] at hret
    cases b10
    · simp at hret
    simp only [Bool.true_eq_false, if_false] at hret
    rcases e11 : env.ResolveTypes w10 { tree_ := some tree } with ⟨b11, w11⟩
    simp only [e11] at hret
    cases b11
    · simp at hret
    simp only [Bool.true_eq_false, if_false] at hret
    cases h12 : env.HasErrors (env.toJson w11 tree)
    · exact ⟨path, file, tree, w1, w2, w3, w6, w8, w10, w11, rfl, rfl, e2, e3, e6, e8, h8, h9,
        e10, e11, h12⟩
    · simp [h12] at hret
  · rintro ⟨path, file, tree, w1, w2, w3, w6, w8, w10, w11, hp, e1, e2, e3, e6, e8, h8, h9,
      e10, e11, h12⟩
    unfold compile
    simp only [hp, e1, e2, e3, e6, e8, h8, h9, e10, e11, h12, TranslationUnit.attach,
      Bool.true_eq_false, Bool.false_eq_true, if_false]
  · intro path file tree w1 w2 w3 w6 w8 w10 w11 hp e1 e2 e3 e6 e8 h8 h9 e10 e11 h12
    unfold compile
    simp only [hp, e1, e2, e3, e6, e8, h8, h9, e10, e11, h12, TranslationUnit.attach,
      Bool.true_eq_false, if_false, if_true]
  · unfold compile Run.calls passingCalls
    simp only []
    generalize env.stringsInit w0 = r1
    obtain ⟨b1, w1⟩ := r1
    cases b1
    · simp
    simp only [Bool.true_eq_false, if_false]
    generalize env.typesInit w1 = r2
    obtain ⟨b2, w2⟩ := r2
    cases b2
    · simp
    simp only [Bool.true_eq_false, if_false]
    cases hp : options_.InputFiles[0]? with
    | none => simp
    | some path0 =>
    simp only []
    generalize env.sourceOpen w2 path0 = r3
    obtain ⟨f3, w3⟩ := r3
    cases f3 with
    | none =>
      simp
    | some file =>
    simp only []
    generalize env.newPreprocessor w3 options_ = w4
    generalize env.newTranslationUnit w4 = w5
    generalize env.ppEnter w5 file = r6
    obtain ⟨b6, w6⟩ := r6
    cases b6
    · simp
    simp only [Bool.true_eq_false, if_false]
    generalize env.newParser w6 options_ = w7
    generalize env.parse w7 = r8
    obtain ⟨tree, w8⟩ := r8
    simp only []
    cases h8 : env.phasePassed w8
    · simp
    simp only [Bool.true_eq_false, if_false]
    generalize env.ppCleanup w8 = w9
    cases h9 : env.phasePassed w9
    · simp
    simp only [Bool.true_eq_false, if_false, TranslationUnit.attach]
    generalize env.ResolveNames w9 _ = r10
    obtain ⟨b10, w10⟩ := r10
    cases b10
    · simp
    simp only [Bool.true_eq_false, if_false]
    generalize env.ResolveTypes w10 _ = r11
    obtain ⟨b11, w11⟩ := r11
    cases b11
    · simp
    simp only [Bool.true_eq_false, if_false]
    generalize env.toJson w11 tree = w12
    cases h12 : env.HasErrors w12
    · simp
    · simp


theorem compile_true_iff_witness :
    (compile (scripted Script.allPass) (oneInput "a.sp") 0).ret = Except.ok true ∧
      (scripted Script.nameError).HasErrors ((scripted Script.nameError).toJson 1 "tree") =
        true ∧
      (compile (scripted Script.nameError) (oneInput "a.sp") 0).ret = Except.ok false :=
  ⟨(compile_true_iff (scripted Script.allPass) (oneInput "a.sp") 0).1.2
      ⟨"a.sp", "a.sp", "tree", 0, 0, 0, 0, 0, 0, 0,
        rfl, rfl, rfl, rfl, rfl, rfl, rfl, rfl, rfl, rfl, rfl⟩,
    rfl,
    (compile_true_iff (scripted Script.nameError) (oneInput "a.sp") 0).2.1
      "a.sp" "a.sp" "tree" 0 0 0 0 0 1 1
      rfl rfl rfl rfl rfl rfl rfl rfl rfl rfl rfl⟩

/-- Claim C4: a run in which the source manager fails to return a file for the
input returns false, and its calls are exactly the two initialisations and the
failed open: the preprocessor is not entered, nothing is parsed or cleaned up,
no resolution pass and no tree dump runs, and no translation unit exists. -/
theorem compile_open_failure_stops {σ φ τ : Type} (env : Collaborators σ φ τ)
    (options_ : CompileOptions) (w0 : σ) (path : String)
    (h : Event.sourceOpen path false ∈ (compile env options_ w0).calls) :
    (compile env options_ w0).ret = Except.ok false ∧
      (compile env options_ w0).calls =
        [Event.stringsInit true, Event.typesInit true, Event.sourceOpen path false] ∧
      (compile env options_ w0).calls.countP Event.laterPhase = 0 ∧
      (compile env options_ w0).unit = none := by
  revert h
  unfold compile Run.calls
  simp only []
  generalize env.stringsInit w0 = r1
  obtain ⟨b1, w1⟩ := r1
  cases b1
  · simp
  simp only [Bool.true_eq_false, if_false]
  generalize env.typesInit w1 = r2
  obtain ⟨b2, w2⟩ := r2
  cases b2
  · simp
  simp only [Bool.true_eq_false, if_false]
  cases hp : options_.InputFiles[0]? with
  | none => simp
  | some path0 =>
  simp only []
  generalize env.sourceOpen w2 path0 = r3
  obtain ⟨f3, w3⟩ := r3
  cases f3 with
  | none =>
    simp only [List.map_append, List.map_cons, List.map_nil, List.cons_append, List.nil_append,
      Option.isSome_none, List.mem_cons, List.mem_singleton, reduceCtorEq, false_or,
      Event.sourceOpen.injEq, and_true, List.not_mem_nil, or_false]
    intro hpath
    subst hpath
    simp [Event.laterPhase]
  | some file =>
  simp only []
  generalize env.newPreprocessor w3 options_ = w4
  generalize env.newTranslationUnit w4 = w5
  generalize env.ppEnter w5 file = r6
  obtain ⟨b6, w6⟩ := r6
  cases b6
  · simp
  simp only [Bool.true_eq_false, if_false]
  generalize env.newParser w6 options_ = w7
  generalize env.parse w7 = r8
  obtain ⟨tree, w8⟩ := r8
  simp only []
  cases h8 : env.phasePassed w8
  · simp
  simp only [Bool.true_eq_false, if_false]
  generalize env.ppCleanup w8 = w9
  cases h9 : env.phasePassed w9
  · simp
  simp only [Bool.true_eq_false, if_false, TranslationUnit.attach]
  generalize env.ResolveNames w9 _ = r10
  obtain ⟨b10, w10⟩ := r10
  cases b10
  · simp
  simp only [Bool.true_eq_false, if_false]
  generalize env.ResolveTypes w10 _ = r11
  obtain ⟨b11, w11⟩ := r11
  cases b11
  · simp
  simp only [Bool.true_eq_false, if_false]
  generalize env.toJson w11 tree = w12
  cases h12 : env.HasErrors w12
  · simp
  · simp

theorem compile_open_failure_stops_witness :
    Event.sourceOpen "a.sp" false ∈
        (compile (scripted Script.missingFile) (oneInput "a.sp") 0).calls ∧
      (compile (scripted Script.missingFile) (oneInput "a.sp") 0).ret = Except.ok false ∧
      (compile (scripted Script.missingFile) (oneInput "a.sp") 0).calls.countP
        Event.laterPhase = 0 :=
  ⟨by decide,
    (compile_open_failure_stops (scripted Script.missingFile) (oneInput "a.sp") 0 "a.sp"
      (by decide)).1,
    (compile_open_failure_stops (scripted Script.missingFile) (oneInput "a.sp") 0 "a.sp"
      (by decide)).2.2.1⟩

/-- Claim C5: take a run that reaches the parser (both initialisations, the
open and `pp.enter` succeed) and let the phase gate be false on the world
after the parse, or on the world after the preprocessor cleanup. Then
`compile` returns false with a failed gate as its last call: the translation
unit has no tree attached, and `attach`, `ResolveNames`, `ResolveTypes` and the
tree dump are never called; when the gate fails after the parse the cleanup is
not called either. -/
theorem compile_gate_failure_stops {σ φ τ : Type} (env : Collaborators σ φ τ)
    (options_ : CompileOptions) (w0 : σ) (path : String) (file : φ) (tree : τ)
    (w1 w2 w3 w6 w8 : σ)
    (hpath : options_.InputFiles[0]? = some path)
    (hstrings : env.stringsInit w0 = (true, w1))
    (htypes : env.typesInit w1 = (true, w2))
    (hopen : env.sourceOpen w2 path = (some file, w3))
    (henter : env.ppEnter (env.newTranslationUnit (env.newPreprocessor w3 options_)) file =
      (true, w6))
    (hparse : env.parse (env.newParser w6 options_) = (tree, w8))
    (hgate : env.phasePassed w8 = false ∨ env.phasePassed (env.ppCleanup w8) = false) :
    (compile env options_ w0).ret = Except.ok false ∧
      (compile env options_ w0).unit = some { tree_ := none } ∧
      (compile env options_ w0).calls.getLast? = some (Event.phasePassed false) ∧
      (compile env options_ w0).calls.countP Event.afterGates = 0 ∧
      (env.phasePassed w8 = false → Event.ppCleanup ∉ (compile env options_ w0).calls) := by
  unfold compile Run.calls
  simp only [hpath, hstrings, htypes, hopen, henter, hparse, Bool.true_eq_false, if_false]
  cases h8 : env.phasePassed w8
  · simp [Event.afterGates]
  · have h9 : env.phasePassed (env.ppCleanup w8) = false := by
      rcases hgate with h | h
      · rw [h8] at h; exact absurd h (by decide)
      · exact h
    simp [h9, Event.afterGates]

theorem compile_gate_failure_stops_witness :
    ((scripted Script.syntaxError).phasePassed 1 = false ∧
      (compile (scripted Script.syntaxError) (oneInput "a.sp") 0).ret = Except.ok false ∧
      (compile (scripted Script.syntaxError) (oneInput "a.sp") 0).unit =
        some { tree_ := none }) ∧
    ((scripted Script.cleanupError).phasePassed 0 = true ∧
      (scripted Script.cleanupError).phasePassed
        ((scripted Script.cleanupError).ppCleanup 0) = false ∧
      (compile (scripted Script.cleanupError) (oneInput "a.sp") 0).ret = Except.ok false ∧
      (compile (scripted Script.cleanupError) (oneInput "a.sp") 0).unit =
        some { tree_ := none }) :=
  ⟨⟨rfl,
      (compile_gate_failure_stops (scripted Script.syntaxError) (oneInput "a.sp") 0
        "a.sp" "a.sp" "tree" 0 0 0 0 1 rfl rfl rfl rfl rfl rfl (Or.inl rfl)).1,
      (compile_gate_failure_stops (scripted Script.syntaxError) (oneInput "a.sp") 0
        "a.sp" "a.sp" "tree" 0 0 0 0 1 rfl rfl rfl rfl rfl rfl (Or.inl rfl)).2.1⟩,
    ⟨rfl, rfl,
      (compile_gate_failure_stops (scripted Script.cleanupError) (oneInput "a.sp") 0
        "a.sp" "a.sp" "tree" 0 0 0 0 0 rfl rfl rfl rfl rfl rfl (Or.inr rfl)).1,
      (compile_gate_failure_stops (scripted Script.cleanupError) (oneInput "a.sp") 0
        "a.sp" "a.sp" "tree" 0 0 0 0 0 rfl rfl rfl rfl rfl rfl (Or.inr rfl)).2.1⟩⟩

/-- Claim C6: take a run that reaches name resolution (so both parse gates
passed), in which `ResolveNames` returns any boolean `b` and leaves a world
where `HasErrors` is true, and let `HasErrors` survive type resolution and the
tree dump. Then `compile` returns false, no gate failed, and the translation
unit still holds the tree the parser returned. -/
theorem compile_name_error_fails {σ φ τ : Type} (env : Collaborators σ φ τ)
    (options_ : CompileOptions) (w0 : σ) (b : Bool) (w : σ)
    (h : (Event.ResolveNames b, w) ∈ (compile env options_ w0).trace)
    (herr : env.HasErrors w = true)
    (hTypes : ∀ v u, env.HasErrors v = true → env.HasErrors (env.ResolveTypes v u).2 = true)
    (hJson : ∀ v t, env.HasErrors v = true → env.HasErrors (env.toJson v t) = true) :
    (compile env options_ w0).ret = Except.ok false ∧
      Event.phasePassed false ∉ (compile env options_ w0).calls ∧
      ∃ v, (Event.newParser, v) ∈ (compile env options_ w0).trace ∧
        (compile env options_ w0).unit = some { tree_ := some (env.parse v).1 } := by
  revert h
  unfold compile Run.calls
  simp only []
  generalize env.stringsInit w0 = r1
  obtain ⟨b1, w1⟩ := r1
  cases b1
  · simp
  simp only [Bool.true_eq_false, if_false]
  generalize env.typesInit w1 = r2
  obtain ⟨b2, w2⟩ := r2
  cases b2
  · simp
  simp only [Bool.true_eq_false, if_false]
  cases hp : options_.InputFiles[0]? with
  | none => simp
  | some path0 =>
  simp only []
  generalize env.sourceOpen w2 path0 = r3
  obtain ⟨f3, w3⟩ := r3
  cases f3 with
  | none =>
    simp
  | some file =>
  simp only []
  generalize env.newPreprocessor w3 options_ = w4
  generalize env.newTranslationUnit w4 = w5
  generalize env.ppEnter w5 file = r6
  obtain ⟨b6, w6⟩ := r6
  cases b6
  · simp
  simp only [Bool.true_eq_false, if_false]
  generalize env.newParser w6 options_ = w7
  cases h8 : env.phasePassed (env.parse w7).2
  · simp
  simp only [Bool.true_eq_false, if_false]
  cases h9 : env.phasePassed (env.ppCleanup (env.parse w7).2)
  · simp
  simp only [Bool.true_eq_false, if_false, TranslationUnit.attach]
  generalize hw9 : env.ppCleanup (env.parse w7).2 = w9
  generalize hu : ({ tree_ := some (env.parse w7).1 } : TranslationUnit τ) = unit
  cases h10 : env.ResolveNames w9 unit with
  | mk b10 w10 =>
  cases b10
  · subst hu; simp
  simp only [Bool.true_eq_false, if_false]
  cases h11 : env.ResolveTypes w10 unit with
  | mk b11 w11 =>
  cases b11
  · subst hu; simp
  simp only [Bool.true_eq_false, if_false]
  subst hu
  cases h12 : env.HasErrors (env.toJson w11 (env.parse w7).1)
  · simp only [Bool.false_eq_true, if_false]
    intro hreach
    have hw : w = w10 := by
      have hboth : b = true ∧ w = w10 := by simpa using hreach
      exact hboth.2
    subst hw
    have e11 : env.HasErrors w11 = true := by
      have hstep := hTypes w ⟨some (env.parse w7).1⟩ herr
      rw [h11] at hstep
      exact hstep
    have e12 := hJson w11 (env.parse w7).1 e11
    rw [h12] at e12
    exact absurd e12 (by decide)
  · simp

theorem compile_name_error_fails_witness :
    (Event.ResolveNames true, 1) ∈
        (compile (scripted Script.nameError) (oneInput "a.sp") 0).trace ∧
      (scripted Script.nameError).HasErrors 1 = true ∧
      (compile (scripted Script.nameError) (oneInput "a.sp") 0).ret = Except.ok false :=
  ⟨by decide, rfl,
    (compile_name_error_fails (scripted Script.nameError) (oneInput "a.sp") 0 true 1
      (by decide) rfl
      (fun v _ hv => by simpa [scripted, Script.nameError, Script.allPass] using hv)
      (fun _ _ hv => hv)).1⟩

/-- Claim C7, the code at the failing input: a constructor call without an
input file succeeds, prints the usage line and leaves `InputFiles` empty; on
that context, once both table initialisations succeed, `compile` reads
`InputFiles[0]` of the empty vector. -/
theorem compile_without_input_out_of_bounds {σ φ τ : Type} (env : Collaborators σ φ τ)
    (w0 : σ) (self : CtxId) (dflt : Nat) (argv : List String) (hargc : argv.length < 2)
    (hstrings : (env.stringsInit w0).1 = true)
    (htypes : (env.typesInit (env.stringsInit w0).2).1 = true) :
    CompileContext.new self dflt argv none =
        Except.ok ⟨some self, ⟨[], [], dflt⟩, ["usage: <file>\n"]⟩ ∧
      (compile env ⟨[], [], dflt⟩ w0).ret = Except.error Fault.indexOutOfBounds := by
  constructor
  · simp [CompileContext.new, hargc]
  · unfold compile
    simp [hstrings, htypes]

theorem compile_without_input_out_of_bounds_witness :
    CompileContext.new 1 0 ["spcomp"] none =
        Except.ok ⟨some 1, ⟨[], [], 0⟩, ["usage: <file>\n"]⟩ ∧
      (compile (scripted Script.allPass) ⟨[], [], 0⟩ 0).ret =
        Except.error Fault.indexOutOfBounds :=
  compile_without_input_out_of_bounds (scripted Script.allPass) 0 1 0 ["spcomp"]
    (by decide) rfl rfl

/-! ## Anonymous names -/

/-- Claim C10, the code at the failing input: the locations (line 1, column 23)
and (line 12, column 3) both get the atom `anonymous at 123`, which is not the
text `anonymous at 1:23` with a separator. -/
theorem createAnonymousName_collision :
    (createAnonymousName pairSource ⟨[]⟩ (1, 23)).1 = ⟨"anonymous at 123"⟩ ∧
    (createAnonymousName pairSource ⟨[]⟩ (12, 3)).1 = ⟨"anonymous at 123"⟩ ∧
    (createAnonymousName pairSource ⟨[]⟩ (1, 23)).1.text ≠ specAnonymousText 1 23 := by
  decide

end SourcePawn
